import Mathlib

/-!
Shallow embedding of the asn-analyzer repository (Python) in Lean 4.

The embedding covers:
* `src/utils/tracker.py`   — `ProcessingTracker`: loading / saving the
  persisted set of processed ASNs and partitioning a requested batch;
* `src/utils/validators.py` — `ASNValidator`: normalisation of the three
  accepted ASN notations and range validation;
* `src/main.py`            — the force / default filtering step of
  `ASNAnalyzer.process_asn_list`;
* `src/scrapers/bgp_scraper.py` — the label→number extraction of
  `BGPHEScraper._parse_as_info` over the flattened page text;
* `src/scrapers/company_scraper.py` — the e-mail dedup / noise-filter /
  truncation pipeline of `CompanyWebsiteScraper._extract_company_data`.

Machine strings are modelled as Lean `String` / `List Char`; Python's
`\d` / `\s` character classes are modelled over ASCII, which is the
alphabet every claim exercises.  Python exceptions are modelled with
`Except`.  Python `set` objects are modelled as lists considered up to
membership: where the code enumerates a set (`list(s)`, `set(l)`) the
enumeration order is unspecified in Python, so nothing below depends on
the order of such a list beyond its underlying element set.
-/

/-! ### JSON values and the persisted-file model (tracker.py) -/

/-- A JSON value, as produced by Python's `json.load`. -/
inductive Json where
  | null : Json
  | bool : Bool → Json
  | num : Int → Json
  | str : String → Json
  | arr : List Json → Json
  | obj : List (String × Json) → Json

/-- The uncaught Python exceptions the tracker code can raise. -/
inductive PyError where
  | attributeError : PyError
  | typeError : PyError
  | osError : PyError
deriving DecidableEq, Repr

/-- State of the persisted tracking file as seen by
`ProcessingTracker._load_processed_asns`:
absent (`self.tracking_file.exists()` is false), unreadable
(`open`/read raises `IOError`), malformed (`json.load` raises
`JSONDecodeError`), or well-formed JSON content. -/
inductive FileState where
  | absent : FileState
  | unreadable : FileState
  | malformed : FileState
  | content : Json → FileState

/-- Python `dict.get k default` over the pairs `json.load` produced for a
JSON object: the binding of the *last* occurrence of the key wins, as in
`dict` construction. -/
def dictGet (kvs : List (String × Json)) (k : String) : Option Json :=
  match kvs with
  | [] => none
  | (k', v) :: rest =>
    match dictGet rest k with
    | some w => some w
    | none => if k' = k then some v else none

/-- Whether a JSON value is hashable in Python (lists and dicts are not). -/
def jsonHashable : Json → Bool
  | .arr _ => false
  | .obj _ => false
  | _ => true

/-- Python `set(x)` for a JSON value `x`, the result represented by a
list of the set's elements (enumeration order immaterial): iterating a
JSON array takes its elements (a `TypeError` if one is unhashable),
iterating a string takes its one-character substrings, iterating an
object takes its keys; `null` / booleans / numbers are not iterable
(`TypeError`). -/
def pySetOf : Json → Except PyError (List Json)
  | .arr xs => if xs.all jsonHashable then .ok xs else .error .typeError
  | .str s => .ok (s.data.map (fun c => Json.str (String.mk [c])))
  | .obj kvs => .ok (kvs.map (fun kv => Json.str kv.1))
  | _ => .error .typeError

/-- `ProcessingTracker._load_processed_asns`: if the file exists, read and
JSON-decode it inside `try … except (json.JSONDecodeError, IOError)`,
then evaluate `set(data.get('processed_asns', []))`.  `data.get` on a
non-object raises `AttributeError` and `set(…)` can raise `TypeError`;
neither is caught by the `except` clause. -/
def loadProcessedAsns : FileState → Except PyError (List Json)
  | .absent => .ok []
  | .unreadable => .ok []
  | .malformed => .ok []
  | .content j =>
    match j with
    | .obj kvs =>
      match dictGet kvs "processed_asns" with
      | none => .ok []
      | some v => pySetOf v
    | _ => .error .attributeError

/-- The JSON object `ProcessingTracker._save_processed_asns` serialises:
the enumerated in-memory set, an ISO timestamp and the count. -/
def saveTrackingData (processed : List String) (timestamp : String) : Json :=
  .obj [("processed_asns", .arr (processed.map Json.str)),
        ("last_updated", .str timestamp),
        ("total_processed", .num processed.length)]

/-- `ProcessingTracker._save_processed_asns`, with the two environment
outcomes made explicit: `mkdir(parents=True, exist_ok=True)` runs
*outside* the `try`, so its failure raises an uncaught `OSError`; a
failing `open`/`json.dump` raises `IOError`, which is caught and only
printed.  The first component is the raised-or-returned outcome (on
success, the JSON written — `none` when the write failed); the second
component is the in-memory set after the call. -/
def saveProcessedAsns (processed : List String) (timestamp : String)
    (mkdirFails : Bool) (writeFails : Bool) :
    Except PyError (Option Json) × List String :=
  if mkdirFails then (.error .osError, processed)
  else if writeFails then (.ok none, processed)
  else (.ok (some (saveTrackingData processed timestamp)), processed)

/-! ### Batch filtering (tracker.py, main.py) -/

/-- Python `asn in s` for a string `asn` and a set `s` of JSON values:
true exactly when the set has the string as an element (a string never
equals a JSON value of another shape). -/
def jsonSetMemStr (set : List Json) (asn : String) : Bool :=
  set.any (fun j => match j with | .str t => t = asn | _ => false)

/-- `ProcessingTracker.filter_new_asns` with the membership test against
the in-memory set abstracted: both output lists are comprehensions over
the input list. -/
def filterNewAsnsBy (isProcessed : String → Bool) (asn_list : List String) :
    List String × List String :=
  (asn_list.filter (fun asn => !(isProcessed asn)),
   asn_list.filter (fun asn => isProcessed asn))

/-- `ProcessingTracker.filter_new_asns` when the in-memory set holds the
strings `processed` (membership = Python `in` = string equality). -/
def filter_new_asns (processed : List String) (asn_list : List String) :
    List String × List String :=
  filterNewAsnsBy (fun asn => processed.contains asn) asn_list

/-- `ProcessingTracker.filter_new_asns` when the in-memory set is the raw
result of `_load_processed_asns` (a set of JSON values). -/
def filterNewAsnsJson (processed : List Json) (asn_list : List String) :
    List String × List String :=
  filterNewAsnsBy (fun asn => jsonSetMemStr processed asn) asn_list

/-- `ProcessingTracker.mark_asn_processed`: `set.add` of the ASN. -/
def mark_asn_processed (processed : List String) (asn : String) : List String :=
  if processed.contains asn then processed else processed ++ [asn]

/-- The filtering step of `ASNAnalyzer.process_asn_list` (main.py lines
34–39): under `force_reprocess` the full requested list is processed and
`already_processed` is `[]`, without consulting or modifying the
tracker; otherwise `filter_new_asns` is used.  The second component is
the tracker's in-memory set after the step. -/
def processAsnListFilter (force_reprocess : Bool) (tracker : List String)
    (asn_list : List String) : (List String × List String) × List String :=
  if force_reprocess then ((asn_list, []), tracker)
  else (filter_new_asns tracker asn_list, tracker)

/-! ### Basic lemmas about the filter -/

theorem mem_filterNewAsnsBy_fst (p : String → Bool) (l : List String) (a : String) :
    a ∈ (filterNewAsnsBy p l).1 ↔ a ∈ l ∧ p a = false := by
  simp [filterNewAsnsBy, List.mem_filter]

theorem mem_filterNewAsnsBy_snd (p : String → Bool) (l : List String) (a : String) :
    a ∈ (filterNewAsnsBy p l).2 ↔ a ∈ l ∧ p a = true := by
  simp [filterNewAsnsBy, List.mem_filter]

theorem contains_iff_mem (l : List String) (a : String) :
    l.contains a = true ↔ a ∈ l := by
  simp [List.contains]

theorem mem_filter_new_asns_fst (processed l : List String) (a : String) :
    a ∈ (filter_new_asns processed l).1 ↔ a ∈ l ∧ a ∉ processed := by
  rw [filter_new_asns, mem_filterNewAsnsBy_fst]
  constructor
  · rintro ⟨h1, h2⟩
    exact ⟨h1, by simpa using h2⟩
  · rintro ⟨h1, h2⟩
    exact ⟨h1, by simpa using h2⟩

/-- **C1.** `ProcessingTracker.filter_new_asns` partitions the requested
list by membership in the tracking set: an element is in the `new` list
iff it occurs in the input and is not tracked, in the `already_done`
list iff it occurs in the input and is tracked; the two lists are
disjoint, their union as sets is the input as a set, and each list is a
sublist of the input (preserving the original relative order). -/
theorem filter_new_asns_partitions (processed asn_list : List String) :
    (∀ a, a ∈ (filter_new_asns processed asn_list).1 ↔
        a ∈ asn_list ∧ a ∉ processed) ∧
    (∀ a, a ∈ (filter_new_asns processed asn_list).2 ↔
        a ∈ asn_list ∧ a ∈ processed) ∧
    (∀ a, ¬(a ∈ (filter_new_asns processed asn_list).1 ∧
        a ∈ (filter_new_asns processed asn_list).2)) ∧
    (∀ a, a ∈ asn_list ↔ a ∈ (filter_new_asns processed asn_list).1 ∨
        a ∈ (filter_new_asns processed asn_list).2) ∧
    (filter_new_asns processed asn_list).1.Sublist asn_list ∧
    (filter_new_asns processed asn_list).2.Sublist asn_list := by
  constructor
  · intro a
    exact mem_filter_new_asns_fst processed asn_list a
  refine ⟨fun a => ?_, fun a => ?_, fun a => ?_, ?_, ?_⟩
  · rw [filter_new_asns, mem_filterNewAsnsBy_snd, contains_iff_mem]
  · rintro ⟨h1, h2⟩
    rw [filter_new_asns, mem_filterNewAsnsBy_fst] at h1
    rw [filter_new_asns, mem_filterNewAsnsBy_snd] at h2
    rw [h1.2] at h2
    exact Bool.false_ne_true h2.2
  · constructor
    · intro hmem
      by_cases hc : processed.contains a = true
      · right
        rw [filter_new_asns, mem_filterNewAsnsBy_snd]
        exact ⟨hmem, hc⟩
      · left
        rw [filter_new_asns, mem_filterNewAsnsBy_fst]
        exact ⟨hmem, by simpa using hc⟩
    · rintro (h | h)
      · rw [filter_new_asns, mem_filterNewAsnsBy_fst] at h
        exact h.1
      · rw [filter_new_asns, mem_filterNewAsnsBy_snd] at h
        exact h.1
  · exact List.filter_sublist _
  · exact List.filter_sublist _

/-- Witness for C1 at a concrete tracking set and batch: with the set
`{"13335"}` and batch `["61855", "13335"]`, `"61855"` is classified new,
`"13335"` already done, and the two partitions never collide. -/
theorem filter_new_asns_partitions_witness :
    "61855" ∈ (filter_new_asns ["13335"] ["61855", "13335"]).1 ∧
    "13335" ∈ (filter_new_asns ["13335"] ["61855", "13335"]).2 ∧
    ¬("13335" ∈ (filter_new_asns ["13335"] ["61855", "13335"]).1 ∧
      "13335" ∈ (filter_new_asns ["13335"] ["61855", "13335"]).2) := by
  refine ⟨?_, ?_, ?_⟩
  · exact (filter_new_asns_partitions ["13335"] ["61855", "13335"]).1 "61855"
      |>.mpr ⟨by decide, by decide⟩
  · exact ((filter_new_asns_partitions ["13335"] ["61855", "13335"]).2.1 "13335")
      |>.mpr ⟨by decide, by decide⟩
  · exact (filter_new_asns_partitions ["13335"] ["61855", "13335"]).2.2.1 "13335"

/-! ### C2: checkpoint / reload round-trip -/

theorem all_hashable_of_strs (ps : List String) :
    (ps.map Json.str).all jsonHashable = true := by
  rw [List.all_eq_true]
  intro x hx
  rw [List.mem_map] at hx
  obtain ⟨y, _, rfl⟩ := hx
  rfl

theorem jsonSetMemStr_map_str (ps : List String) (a : String) :
    jsonSetMemStr (ps.map Json.str) a = ps.contains a := by
  rw [Bool.eq_iff_iff, contains_iff_mem]
  simp only [jsonSetMemStr, List.any_eq_true, List.mem_map]
  constructor
  · rintro ⟨j, ⟨y, hy, rfl⟩, hj⟩
    simp only [decide_eq_true_eq] at hj
    exact hj ▸ hy
  · intro ha
    exact ⟨Json.str a, ⟨a, ha, rfl⟩, by simp⟩

/-- **C2.** Saving the in-memory set with `_save_processed_asns` and
reloading the result with `_load_processed_asns` succeeds and yields a
set with the same membership, so `filter_new_asns` on any batch returns
the very same `(new, already_done)` pair before and after the save /
reload round-trip. -/
theorem filter_after_reload_eq (ps : List String) (ts : String)
    (batch : List String) :
    loadProcessedAsns (FileState.content (saveTrackingData ps ts)) =
      Except.ok (ps.map Json.str) ∧
    filterNewAsnsJson (ps.map Json.str) batch = filter_new_asns ps batch := by
  constructor
  · simp [loadProcessedAsns, saveTrackingData, dictGet, pySetOf,
      all_hashable_of_strs]
  · have h1 : (fun asn => jsonSetMemStr (ps.map Json.str) asn) =
        (fun asn => ps.contains asn) := funext (jsonSetMemStr_map_str ps)
    unfold filterNewAsnsJson filter_new_asns
    rw [h1]

/-! ### C3: force mode bypasses the filter, keeps the tracking set -/

/-- **C3.** With the force flag set, `process_asn_list` takes the whole
requested list as `new`, reports no `already_processed` ASNs, and leaves
the tracker's in-memory set untouched; a subsequent default (non-forced)
run still excludes every tracked ASN from its `new` partition. -/
theorem process_force_bypasses_filter (tracker batch : List String) :
    processAsnListFilter true tracker batch = ((batch, []), tracker) ∧
    (∀ a, a ∈ tracker → a ∉ (processAsnListFilter false tracker batch).1.1) := by
  constructor
  · rfl
  · intro a ha hmem
    simp only [processAsnListFilter, if_neg Bool.false_ne_true] at hmem
    rw [mem_filter_new_asns_fst tracker batch a] at hmem
    exact hmem.2 ha

/-- Witness for C3: with tracking set `{"13335"}` and batch
`["13335", "61855"]`, the forced run processes the full batch and keeps
the set, and the subsequent default run does not re-process `"13335"`. -/
theorem process_force_bypasses_filter_witness :
    processAsnListFilter true ["13335"] ["13335", "61855"] =
      ((["13335", "61855"], []), ["13335"]) ∧
    "13335" ∉ (processAsnListFilter false ["13335"] ["13335", "61855"]).1.1 :=
  ⟨(process_force_bypasses_filter ["13335"] ["13335", "61855"]).1,
   (process_force_bypasses_filter ["13335"] ["13335", "61855"]).2 "13335"
     (by decide)⟩

/-! ### ASN validator (validators.py): normalisation -/

/-- Python's `\s` character class and `str.strip` default set (ASCII). -/
def isSpacePy (c : Char) : Bool :=
  c = ' ' ∨ c = '\t' ∨ c = '\n' ∨ c = '\x0b' ∨ c = '\x0c' ∨ c = '\r'

/-- Python `str.strip()` on the character list. -/
def stripChars (cs : List Char) : List Char :=
  ((cs.dropWhile isSpacePy).reverse.dropWhile isSpacePy).reverse

/-- Decimal value of a digit string, as `int()` computes it. -/
def digitsToNat (cs : List Char) : Nat :=
  cs.foldl (fun n c => 10 * n + (c.toNat - 48)) 0

/-- Full match of `^(\d+)$`: non-empty, all digits. -/
def isDigitsNE (cs : List Char) : Bool :=
  !cs.isEmpty && cs.all Char.isDigit

/-- Match of `^AS(\d+)$` with `re.I` (the `'as_prefix'` pattern of
`ASNValidator`): two case-insensitive letters `A` `S`, then the digit
group, which is returned. -/
def matchASDigits (cs : List Char) : Option (List Char) :=
  match cs with
  | c1 :: c2 :: rest =>
    if (c1 = 'A' ∨ c1 = 'a') ∧ (c2 = 'S' ∨ c2 = 's') ∧ isDigitsNE rest = true
    then some rest else none
  | _ => none

/-- Match of `^(\d+)\.(\d+)$` (the `'asdot'` pattern of `ASNValidator`):
a maximal leading digit group, a literal dot, a trailing digit group. -/
def matchAsdot (cs : List Char) : Option (List Char × List Char) :=
  match cs.takeWhile Char.isDigit, cs.dropWhile Char.isDigit with
  | [], _ => none
  | a, '.' :: b => if isDigitsNE b then some (a, b) else none
  | _, _ => none

/-- The three pattern branches of `ASNValidator.normalize_asn`, applied to
the stripped input (tried in the source's order: plain, AS-prefixed,
ASDOT; dot value = high × 65536 + low, rendered with `str`). -/
def normCore (cs : List Char) : Option String :=
  if isDigitsNE cs then some (String.mk cs)
  else
    match matchASDigits cs with
    | some ds => some (String.mk ds)
    | none =>
      match matchAsdot cs with
      | some (a, b) => some (Nat.repr (digitsToNat a * 65536 + digitsToNat b))
      | none => none

/-- `ASNValidator.normalize_asn` on a string argument: a falsy (empty)
input is rejected before stripping. -/
def normalize_asn (s : String) : Option String :=
  if s = "" then none else normCore (stripChars s.data)

/-- A Python argument that is either a `str` or any non-string value, for
the `isinstance(asn_input, str)` guard. -/
inductive PyVal where
  | str : String → PyVal
  | nonStr : PyVal

/-- `ASNValidator.normalize_asn` including the type guard:
`not isinstance(asn_input, str)` yields `None`. -/
def normalizeAsnPy : PyVal → Option String
  | .str s => normalize_asn s
  | .nonStr => none

/-! ### ASN validator (validators.py): range validation -/

/-- Tail of Python `int()`'s digit grammar: digits with single
underscores allowed between digits. -/
def pyDigitsTail : List Char → Bool
  | [] => true
  | '_' :: c :: rest => c.isDigit && pyDigitsTail rest
  | c :: rest => c.isDigit && pyDigitsTail rest

/-- Python `int()`'s digit grammar: `digit (["_"] digit)*`. -/
def validPyDigits : List Char → Bool
  | [] => false
  | c :: rest => c.isDigit && pyDigitsTail rest

/-- Python `int(s)` for a decimal string: strip, optional sign, digits
(with grouping underscores); anything else raises `ValueError`,
modelled as `none`. -/
def pyInt (s : String) : Option Int :=
  match stripChars s.data with
  | '+' :: rest =>
    if validPyDigits rest
    then some (digitsToNat (rest.filter (fun c => c ≠ '_')))
    else none
  | '-' :: rest =>
    if validPyDigits rest
    then some (-(digitsToNat (rest.filter (fun c => c ≠ '_')) : Int))
    else none
  | t =>
    if validPyDigits t
    then some (digitsToNat (t.filter (fun c => c ≠ '_')))
    else none

/-- `ASNValidator.valid_ranges` (RFC 6996, RFC 7300), verbatim. -/
def valid_ranges : List (Int × Int) :=
  [(1, 23455), (23456, 23456), (64496, 64511), (64512, 65534),
   (65536, 4199999999)]

/-- `ASNValidator.is_valid_asn`: `int(asn)` then membership in any of the
inclusive ranges; a `ValueError`/`TypeError` from the conversion makes
it `False`. -/
def is_valid_asn (asn : String) : Bool :=
  match pyInt asn with
  | none => false
  | some n => valid_ranges.any (fun r => decide (r.1 ≤ n) && decide (n ≤ r.2))

/-! ### Lemmas about stripping and the three notations -/

theorem dropWhile_eq_self_of_none {α : Type} (p : α → Bool) (cs : List α)
    (h : ∀ c ∈ cs, p c = false) : cs.dropWhile p = cs := by
  cases cs with
  | nil => rfl
  | cons c rest => simp [List.dropWhile_cons, h c (List.mem_cons_self c rest)]

theorem stripChars_eq_self (cs : List Char)
    (h : ∀ c ∈ cs, isSpacePy c = false) : stripChars cs = cs := by
  unfold stripChars
  rw [dropWhile_eq_self_of_none _ _ h,
    dropWhile_eq_self_of_none _ _ (fun c hc => h c (List.mem_reverse.mp hc)),
    List.reverse_reverse]

theorem isSpacePy_eq_false_of_isDigit {c : Char} (h : c.isDigit = true) :
    isSpacePy c = false := by
  unfold isSpacePy
  rw [decide_eq_false_iff_not]
  rintro (rfl | rfl | rfl | rfl | rfl | rfl) <;> simp at h

theorem takeWhile_append_all {p : Char → Bool} {a : List Char}
    (h : ∀ c ∈ a, p c = true) (rest : List Char) :
    (a ++ rest).takeWhile p = a ++ rest.takeWhile p := by
  induction a with
  | nil => simp
  | cons c a ih =>
    simp only [List.cons_append, List.takeWhile_cons,
      h c (List.mem_cons_self c a)]
    rw [ih (fun d hd => h d (List.mem_cons_of_mem c hd))]
    simp

theorem dropWhile_append_all {p : Char → Bool} {a : List Char}
    (h : ∀ c ∈ a, p c = true) (rest : List Char) :
    (a ++ rest).dropWhile p = rest.dropWhile p := by
  induction a with
  | nil => simp
  | cons c a ih =>
    simp only [List.cons_append, List.dropWhile_cons,
      h c (List.mem_cons_self c a)]
    exact ih (fun d hd => h d (List.mem_cons_of_mem c hd))

theorem isDigitsNE_true_of (cs : List Char) (hne : cs ≠ [])
    (hdig : cs.all Char.isDigit = true) : isDigitsNE cs = true := by
  unfold isDigitsNE
  cases cs with
  | nil => exact absurd rfl hne
  | cons c rest => simpa using hdig

theorem stringMk_ne_empty (cs : List Char) (hne : cs ≠ []) :
    String.mk cs ≠ "" := by
  intro h
  exact hne (congrArg String.data h)

/-- **C4.** `ASNValidator.normalize_asn` is a pure function on the
trimmed input that tries exactly three forms in this order: a non-empty
all-digits string is returned as-is; a case-insensitive `AS` prefix
followed by digits returns the digit group; `digits.digits` dot notation
returns the decimal rendering of high-word × 65536 + low-word (so
`normalize_asn "1.1" = "65537"`); any other input — the empty string, a
non-string value, or trimmed text matching none of the three patterns —
yields `none`. -/
theorem normalize_asn_three_forms :
    normalizeAsnPy PyVal.nonStr = none ∧
    normalize_asn "" = none ∧
    (∀ cs : List Char, cs ≠ [] → cs.all Char.isDigit = true →
      normalize_asn (String.mk cs) = some (String.mk cs)) ∧
    (∀ c1 c2 : Char, ∀ ds : List Char, (c1 = 'A' ∨ c1 = 'a') →
      (c2 = 'S' ∨ c2 = 's') → ds ≠ [] → ds.all Char.isDigit = true →
      normalize_asn (String.mk (c1 :: c2 :: ds)) = some (String.mk ds)) ∧
    (∀ a b : List Char, a ≠ [] → b ≠ [] → a.all Char.isDigit = true →
      b.all Char.isDigit = true →
      normalize_asn (String.mk (a ++ '.' :: b)) =
        some (Nat.repr (digitsToNat a * 65536 + digitsToNat b))) ∧
    (∀ s : String, isDigitsNE (stripChars s.data) = false →
      matchASDigits (stripChars s.data) = none →
      matchAsdot (stripChars s.data) = none → normalize_asn s = none) ∧
    normalize_asn "1.1" = some "65537" := by
  refine ⟨rfl, rfl, ?_, ?_, ?_, ?_, by decide⟩
  · intro cs hne hdig
    rw [List.all_eq_true] at hdig
    rw [normalize_asn, if_neg (stringMk_ne_empty cs hne)]
    show normCore (stripChars cs) = _
    rw [stripChars_eq_self cs
      (fun c hc => isSpacePy_eq_false_of_isDigit (hdig c hc))]
    rw [normCore, if_pos (isDigitsNE_true_of cs hne (List.all_eq_true.mpr hdig))]
  · intro c1 c2 ds h1 h2 hne hdig
    rw [List.all_eq_true] at hdig
    rw [normalize_asn, if_neg (stringMk_ne_empty _ (by simp))]
    show normCore (stripChars (c1 :: c2 :: ds)) = _
    have hnospace : ∀ c ∈ c1 :: c2 :: ds, isSpacePy c = false := by
      intro c hc
      rcases List.mem_cons.mp hc with rfl | hc
      · rcases h1 with rfl | rfl <;> decide
      rcases List.mem_cons.mp hc with rfl | hc
      · rcases h2 with rfl | rfl <;> decide
      · exact isSpacePy_eq_false_of_isDigit (hdig c hc)
    rw [stripChars_eq_self _ hnospace]
    have hnotdig : isDigitsNE (c1 :: c2 :: ds) = false := by
      unfold isDigitsNE
      have : c1.isDigit = false := by rcases h1 with rfl | rfl <;> decide
      simp [this]
    rw [normCore, if_neg (by simp [hnotdig])]
    show (match matchASDigits (c1 :: c2 :: ds) with
      | some ds => some (String.mk ds)
      | none =>
        match matchAsdot (c1 :: c2 :: ds) with
        | some (a, b) => some (Nat.repr (digitsToNat a * 65536 + digitsToNat b))
        | none => none) = _
    rw [matchASDigits, if_pos ⟨h1, h2,
      isDigitsNE_true_of ds hne (List.all_eq_true.mpr hdig)⟩]
  · intro a b hane hbne hadig hbdig
    rw [List.all_eq_true] at hadig hbdig
    rw [normalize_asn, if_neg (stringMk_ne_empty _ (by simp))]
    show normCore (stripChars (a ++ '.' :: b)) = _
    have hnospace : ∀ c ∈ a ++ '.' :: b, isSpacePy c = false := by
      intro c hc
      rcases List.mem_append.mp hc with hc | hc
      · exact isSpacePy_eq_false_of_isDigit (hadig c hc)
      rcases List.mem_cons.mp hc with rfl | hc
      · decide
      · exact isSpacePy_eq_false_of_isDigit (hbdig c hc)
    rw [stripChars_eq_self _ hnospace]
    have hnotdig : isDigitsNE (a ++ '.' :: b) = false := by
      unfold isDigitsNE
      rw [Bool.eq_false_iff]
      intro hall
      rw [Bool.and_eq_true, List.all_eq_true] at hall
      exact absurd (hall.2 '.' (by simp)) (by decide)
    rw [normCore, if_neg (by simp [hnotdig])]
    have hAS : matchASDigits (a ++ '.' :: b) = none := by
      obtain ⟨c, a', rfl⟩ : ∃ c a', a = c :: a' := by
        cases a with
        | nil => exact absurd rfl hane
        | cons c a' => exact ⟨c, a', rfl⟩
      have hcdig : c.isDigit = true := hadig c (List.mem_cons_self c a')
      have hcne : ¬(c = 'A' ∨ c = 'a') := by
        rintro (rfl | rfl) <;> simp at hcdig
      cases a' with
      | nil =>
        have hm : matchASDigits ((c :: []) ++ '.' :: b) =
            (if (c = 'A' ∨ c = 'a') ∧ ('.' = 'S' ∨ '.' = 's') ∧
                isDigitsNE b = true
             then some b else none) := rfl
        rw [hm, if_neg]
        rintro ⟨h1, -, -⟩
        exact hcne h1
      | cons c2 a'' =>
        have hm : matchASDigits ((c :: c2 :: a'') ++ '.' :: b) =
            (if (c = 'A' ∨ c = 'a') ∧ (c2 = 'S' ∨ c2 = 's') ∧
                isDigitsNE (a'' ++ '.' :: b) = true
             then some (a'' ++ '.' :: b) else none) := rfl
        rw [hm, if_neg]
        rintro ⟨h1, -, -⟩
        exact hcne h1
    rw [hAS]
    have htake : (a ++ '.' :: b).takeWhile Char.isDigit = a := by
      rw [takeWhile_append_all hadig]
      simp [List.takeWhile_cons]
    have hdrop : (a ++ '.' :: b).dropWhile Char.isDigit = '.' :: b := by
      rw [dropWhile_append_all hadig]
      simp [List.dropWhile_cons]
    have hdot : matchAsdot (a ++ '.' :: b) = some (a, b) := by
      rw [matchAsdot, htake, hdrop]
      cases a with
      | nil => exact absurd rfl hane
      | cons c a' => simp [isDigitsNE_true_of b hbne (List.all_eq_true.mpr hbdig)]
    rw [hdot]
  · intro s hplain hAS hdot
    rw [normalize_asn]
    by_cases hs : s = ""
    · rw [if_pos hs]
    · rw [if_neg hs]
      show normCore (stripChars s.data) = none
      rw [normCore, if_neg (by simp [hplain]), hAS, hdot]

/-- Witness for C4 at concrete inputs: the three accepted notations and a
rejected one, obtained from `normalize_asn_three_forms`. -/
theorem normalize_asn_three_forms_witness :
    normalize_asn (String.mk ['6', '5', '0', '0', '1']) =
      some (String.mk ['6', '5', '0', '0', '1']) ∧
    normalize_asn (String.mk ['a', 's', '7']) = some (String.mk ['7']) ∧
    normalize_asn (String.mk (['1'] ++ '.' :: ['2'])) = some (Nat.repr 65538) ∧
    normalize_asn "x1" = none := by
  obtain ⟨-, -, hb, hc, hd, he, -⟩ := normalize_asn_three_forms
  refine ⟨hb _ (by decide) (by decide), hc 'a' 's' ['7'] (Or.inr rfl)
    (Or.inr rfl) (by decide) (by decide), ?_, ?_⟩
  · have := hd ['1'] ['2'] (by decide) (by decide) (by decide) (by decide)
    simpa using this
  · exact he "x1" (by decide) (by decide) (by decide)

/-! ### C5: range validation -/

/-- **C5.** `ASNValidator.is_valid_asn` accepts a canonical string
exactly when it parses as an integer in the union of the inclusive
ranges 1–23455, 23456–23456, 64496–64511, 64512–65534 and
65536–4199999999 — the ranges of `valid_ranges`, spelled out — and
rejects every string `int()` cannot parse; in particular 23455, 23456
and 4199999999 are valid while 23457, 4200000000, 0 and a non-numeric
string are not. -/
theorem is_valid_asn_ranges :
    (∀ s : String, ∀ n : Int, pyInt s = some n →
      (is_valid_asn s = true ↔
        ((1 ≤ n ∧ n ≤ 23455) ∨ n = 23456 ∨ (64496 ≤ n ∧ n ≤ 64511) ∨
         (64512 ≤ n ∧ n ≤ 65534) ∨ (65536 ≤ n ∧ n ≤ 4199999999)))) ∧
    (∀ s : String, pyInt s = none → is_valid_asn s = false) ∧
    is_valid_asn "23455" = true ∧ is_valid_asn "23456" = true ∧
    is_valid_asn "23457" = false ∧ is_valid_asn "4199999999" = true ∧
    is_valid_asn "4200000000" = false ∧ is_valid_asn "0" = false ∧
    is_valid_asn "AS13335" = false := by
  refine ⟨?_, ?_, by decide, by decide, by decide, by decide, by decide,
    by decide, by decide⟩
  · intro s n h
    rw [is_valid_asn, h]
    simp only [valid_ranges, List.any_cons, List.any_nil, Bool.or_eq_true,
      Bool.and_eq_true, decide_eq_true_eq, Bool.false_eq_true, or_false]
    omega
  · intro s h
    rw [is_valid_asn, h]

/-- Witness for C5: `pyInt` parses "65536" to 65536, and the range
characterisation of `is_valid_asn_ranges` applies to it, as does the
rejection clause to the unparseable "x". -/
theorem is_valid_asn_ranges_witness :
    (is_valid_asn "65536" = true ↔
      ((1 ≤ (65536 : Int) ∧ (65536 : Int) ≤ 23455) ∨ (65536 : Int) = 23456 ∨
       (64496 ≤ (65536 : Int) ∧ (65536 : Int) ≤ 64511) ∨
       (64512 ≤ (65536 : Int) ∧ (65536 : Int) ≤ 65534) ∨
       (65536 ≤ (65536 : Int) ∧ (65536 : Int) ≤ 4199999999))) ∧
    is_valid_asn "x" = false :=
  ⟨is_valid_asn_ranges.1 "65536" 65536 (by decide),
   is_valid_asn_ranges.2.1 "x" (by decide)⟩

/-! ### C10: leading zeros survive normalisation and defeat tracking -/

/-- **C10.** An all-digit input is returned verbatim by
`normalize_asn` including leading zeros, and `is_valid_asn` accepts it
by integer value: `"065001"` normalises to itself and validates.  The
tracker compares canonical strings textually, so `"065001"` and
`"65001"` — the same ASN — are distinct to it: with `"65001"` marked
done, `filter_new_asns` still classifies `"065001"` as new. -/
theorem leading_zeros_distinct_to_tracker :
    normalize_asn "065001" = some "065001" ∧
    is_valid_asn "065001" = true ∧
    normalize_asn "65001" = some "65001" ∧
    ("065001" : String) ≠ "65001" ∧
    filter_new_asns ["65001"] ["065001"] = (["065001"], []) ∧
    filter_new_asns (mark_asn_processed [] "65001") ["065001", "65001"] =
      (["065001"], ["65001"]) := by
  refine ⟨by decide, by decide, by decide, by decide, by decide, by decide⟩

/-! ### C6: tracker load under absent / unreadable / corrupt files -/

/-- Counterexample to C6 as stated: a tracking file holding syntactically
valid JSON of the wrong shape — here the JSON array `[]` — makes
`_load_processed_asns` raise an uncaught `AttributeError`
(`data.get` on a list), rather than return the empty set. -/
theorem load_raises_on_nonobject_json :
    loadProcessedAsns (FileState.content (Json.arr [])) =
      Except.error PyError.attributeError := rfl

/-- **C6 (amended).** `_load_processed_asns` returns the empty set when
the tracking file is absent, unreadable, or not syntactically valid
JSON, and returns the stored elements for a JSON object whose
`processed_asns` key holds an array (the key defaulting to the empty
list when missing); but syntactically valid JSON whose top level is not
an object escapes the `except` clause and raises `AttributeError`. -/
theorem load_processed_asns_amended :
    loadProcessedAsns FileState.absent = Except.ok [] ∧
    loadProcessedAsns FileState.unreadable = Except.ok [] ∧
    loadProcessedAsns FileState.malformed = Except.ok [] ∧
    (∀ kvs : List (String × Json), dictGet kvs "processed_asns" = none →
      loadProcessedAsns (FileState.content (Json.obj kvs)) = Except.ok []) ∧
    (∀ kvs : List (String × Json), ∀ l : List Json,
      dictGet kvs "processed_asns" = some (Json.arr l) →
      l.all jsonHashable = true →
      loadProcessedAsns (FileState.content (Json.obj kvs)) = Except.ok l) ∧
    (∀ j : Json, (∀ kvs, j ≠ Json.obj kvs) →
      loadProcessedAsns (FileState.content j) =
        Except.error PyError.attributeError) := by
  refine ⟨rfl, rfl, rfl, ?_, ?_, ?_⟩
  · intro kvs h
    simp [loadProcessedAsns, h]
  · intro kvs l h hhash
    simp [loadProcessedAsns, h, pySetOf, hhash]
  · intro j h
    cases j with
    | null => rfl
    | bool b => rfl
    | num n => rfl
    | str s => rfl
    | arr xs => rfl
    | obj kvs => exact absurd rfl (h kvs)

/-- Witness for the amended C6: a well-formed one-entry tracking file
loads to its stored singleton, and a top-level JSON number raises. -/
theorem load_processed_asns_amended_witness :
    loadProcessedAsns (FileState.content
        (Json.obj [("processed_asns", Json.arr [Json.str "13335"])])) =
      Except.ok [Json.str "13335"] ∧
    loadProcessedAsns (FileState.content (Json.num 3)) =
      Except.error PyError.attributeError :=
  ⟨load_processed_asns_amended.2.2.2.2.1
      [("processed_asns", Json.arr [Json.str "13335"])] [Json.str "13335"]
      rfl rfl,
   load_processed_asns_amended.2.2.2.2.2 (Json.num 3)
      (fun _ h => Json.noConfusion h)⟩

/-! ### C7: tracker checkpoint -/

/-- Counterexample to C7 as stated: when creating the parent storage
location fails, `_save_processed_asns` does not catch the error — the
`mkdir` call sits outside the `try` block, so the `OSError`
propagates and aborts the run. -/
theorem save_raises_on_mkdir_failure :
    (saveProcessedAsns ["13335"] "2026-10-12T00:00:00" true false).1 =
      Except.error PyError.osError := rfl

/-- **C7 (amended).** `_save_processed_asns` writes the full in-memory
set together with a timestamp and a count; a failure of the file write
itself (`IOError`) is caught and only reported; but a failure creating
the parent storage location propagates as an uncaught `OSError`; in
every outcome the in-memory set is left unchanged. -/
theorem save_processed_asns_amended (ps : List String) (ts : String) :
    (saveProcessedAsns ps ts false false).1 =
      Except.ok (some (Json.obj
        [("processed_asns", Json.arr (ps.map Json.str)),
         ("last_updated", Json.str ts),
         ("total_processed", Json.num ps.length)])) ∧
    (saveProcessedAsns ps ts false true).1 = Except.ok none ∧
    (∀ w : Bool, (saveProcessedAsns ps ts true w).1 =
      Except.error PyError.osError) ∧
    (∀ m w : Bool, (saveProcessedAsns ps ts m w).2 = ps) := by
  refine ⟨rfl, rfl, fun w => rfl, fun m w => ?_⟩
  cases m <;> cases w <;> rfl

/-! ### BGP scraper (bgp_scraper.py): label → number extraction -/

/-- The `[\d,]+` character class of the `ips_originated_v4` pattern. -/
def isDigitComma (c : Char) : Bool := c.isDigit || c = ','

/-- The `[\d.]+` character class of the `avg_path_length_all` pattern. -/
def isDigitDot (c : Char) : Bool := c.isDigit || c = '.'

/-- One attempted match, at the current position, of a pattern of the
shape `<literal>\s*(<class>+)`: the literal must start here, then
greedy whitespace, then a non-empty greedy run of the value class
(whitespace, digits, `,` and `.` are pairwise disjoint here, so the
regex needs no backtracking); returns the captured value characters. -/
def matchAfter (lit : List Char) (P : Char → Bool) (cs : List Char) :
    Option (List Char) :=
  if lit.isPrefixOf cs then
    if (((cs.drop lit.length).dropWhile isSpacePy).takeWhile P).isEmpty then none
    else some (((cs.drop lit.length).dropWhile isSpacePy).takeWhile P)
  else none

/-- `re.search` for such a pattern: try every start position from the
left; the first full match wins. -/
def searchPat (lit : List Char) (P : Char → Bool) : List Char → Option (List Char)
  | [] => matchAfter lit P []
  | c :: cs =>
    match matchAfter lit P (c :: cs) with
    | some v => some v
    | none => searchPat lit P cs

/-- Number of positions of `cs` at which `pat` starts. -/
def occCount (pat : List Char) : List Char → Nat
  | [] => if pat.isPrefixOf [] then 1 else 0
  | c :: cs => (if pat.isPrefixOf (c :: cs) then 1 else 0) + occCount pat cs

/-- The label half of each entry of the `patterns` table of
`BGPHEScraper._parse_as_info`, verbatim. -/
def labelPrefAll : List Char := "Prefixes Originated (all):".data

def labelPrefV4 : List Char := "Prefixes Originated (v4):".data

def labelPrefV6 : List Char := "Prefixes Originated (v6):".data

def labelRpkiValid : List Char := "RPKI Originated Valid (all):".data

def labelRpkiInvalid : List Char := "RPKI Originated Invalid (all):".data

def labelPeers : List Char := "BGP Peers Observed (all):".data

def labelIps : List Char := "IPs Originated (v4):".data

def labelAvg : List Char := "Average AS Path Length (all):".data

/-- The numeric fields of the `ASInfo` record (data_models.py) that
`_parse_as_info` fills from the flattened page text, plus the ASN.  The
`avg_path_length_all` field keeps the matched text (the code converts it
with `float`); `ips_originated_v4` holds the integer value of the
comma-stripped match. -/
structure ASInfo where
  asn : String
  prefixes_originated_all : Option Nat
  prefixes_originated_v4 : Option Nat
  prefixes_originated_v6 : Option Nat
  rpki_valid_all : Option Nat
  rpki_invalid_all : Option Nat
  bgp_peers_observed_all : Option Nat
  ips_originated_v4 : Option Nat
  avg_path_length_all : Option String
deriving DecidableEq, Repr

/-- The regex-table part of `BGPHEScraper._parse_as_info` over the
flattened page text: each field is extracted independently by an
`re.search` of its own pattern, and set only when the search matches.
(The DOM-derived `company_website` / `country` fields are extracted from
the markup, not from this text, and are not part of this model.) -/
def parse_as_info (text : String) (asn : String) : ASInfo :=
  { asn := asn
    prefixes_originated_all :=
      (searchPat labelPrefAll Char.isDigit text.data).map digitsToNat
    prefixes_originated_v4 :=
      (searchPat labelPrefV4 Char.isDigit text.data).map digitsToNat
    prefixes_originated_v6 :=
      (searchPat labelPrefV6 Char.isDigit text.data).map digitsToNat
    rpki_valid_all :=
      (searchPat labelRpkiValid Char.isDigit text.data).map digitsToNat
    rpki_invalid_all :=
      (searchPat labelRpkiInvalid Char.isDigit text.data).map digitsToNat
    bgp_peers_observed_all :=
      (searchPat labelPeers Char.isDigit text.data).map digitsToNat
    ips_originated_v4 :=
      (searchPat labelIps isDigitComma text.data).map
        (fun v => digitsToNat (v.filter (fun c => c ≠ ',')))
    avg_path_length_all :=
      (searchPat labelAvg isDigitDot text.data).map String.mk }

/-! ### Lemmas about `searchPat` and `occCount` -/

theorem searchPat_eq_none_of_occCount_zero (pat : List Char) (P : Char → Bool)
    (cs : List Char) (h : occCount pat cs = 0) : searchPat pat P cs = none := by
  induction cs with
  | nil =>
    rw [occCount] at h
    by_cases hp : pat.isPrefixOf [] = true
    · rw [if_pos hp] at h
      exact absurd h one_ne_zero
    · rw [searchPat, matchAfter, if_neg hp]
  | cons c cs ih =>
    rw [occCount] at h
    by_cases hp : pat.isPrefixOf (c :: cs) = true
    · rw [if_pos hp] at h
      omega
    · rw [if_neg hp, Nat.zero_add] at h
      rw [searchPat, matchAfter, if_neg hp]
      exact ih h

theorem occCount_pos_of_isPrefixOf (pat cs : List Char)
    (h : pat.isPrefixOf cs = true) : 1 ≤ occCount pat cs := by
  cases cs with
  | nil => rw [occCount, if_pos h]
  | cons c cs => rw [occCount, if_pos h]; omega

theorem isPrefixOf_append_self (pat s : List Char) :
    pat.isPrefixOf (pat ++ s) = true := by
  rw [List.isPrefixOf_iff_prefix]
  exact ⟨s, rfl⟩

theorem occCount_pos_append (pat q s : List Char) :
    1 ≤ occCount pat (q ++ pat ++ s) := by
  induction q with
  | nil =>
    rw [List.nil_append]
    exact occCount_pos_of_isPrefixOf pat (pat ++ s) (isPrefixOf_append_self pat s)
  | cons c q ih =>
    simp only [List.cons_append]
    rw [occCount]
    omega

theorem searchPat_first (pat : List Char) (P : Char → Bool) (p s : List Char)
    (h : occCount pat (p ++ pat ++ s) = 1) :
    searchPat pat P (p ++ pat ++ s) = matchAfter pat P (pat ++ s) := by
  induction p with
  | nil =>
    rw [List.nil_append] at h ⊢
    cases hps : pat ++ s with
    | nil =>
      rw [searchPat]
    | cons c cs =>
      rw [hps] at h
      have hp : pat.isPrefixOf (c :: cs) = true := by
        have hself := isPrefixOf_append_self pat s
        rw [hps] at hself
        exact hself
      rw [searchPat]
      cases hma : matchAfter pat P (c :: cs) with
      | some v => rfl
      | none =>
        rw [occCount, if_pos hp] at h
        exact searchPat_eq_none_of_occCount_zero pat P cs (by omega)
  | cons c p ih =>
    simp only [List.cons_append] at h ⊢
    rw [occCount] at h
    have htail : 1 ≤ occCount pat (p ++ pat ++ s) := occCount_pos_append pat p s
    have hp : pat.isPrefixOf (c :: (p ++ pat ++ s)) = false := by
      by_cases hq : pat.isPrefixOf (c :: (p ++ pat ++ s)) = true
      · rw [if_pos hq] at h
        omega
      · exact Bool.eq_false_iff.mpr hq
    have hnp : ¬(pat.isPrefixOf (c :: (p ++ pat ++ s)) = true) := by
      rw [hp]
      exact Bool.false_ne_true
    rw [if_neg hnp, Nat.zero_add] at h
    rw [searchPat, matchAfter, if_neg hnp]
    exact ih h

theorem occCount_pos_of_searchPat_some (pat : List Char) (P : Char → Bool)
    (cs v : List Char) (h : searchPat pat P cs = some v) :
    1 ≤ occCount pat cs := by
  induction cs with
  | nil =>
    rw [searchPat, matchAfter] at h
    by_cases hp : pat.isPrefixOf [] = true
    · exact occCount_pos_of_isPrefixOf pat [] hp
    · rw [if_neg hp] at h
      exact absurd h (Option.noConfusion)
  | cons c cs ih =>
    rw [searchPat] at h
    cases hma : matchAfter pat P (c :: cs) with
    | some w =>
      have hp : pat.isPrefixOf (c :: cs) = true := by
        by_cases hq : pat.isPrefixOf (c :: cs) = true
        · exact hq
        · rw [matchAfter, if_neg hq] at hma
          exact absurd hma (Option.noConfusion)
      exact occCount_pos_of_isPrefixOf pat (c :: cs) hp
    | none =>
      rw [hma] at h
      have hrec := ih h
      rw [occCount]
      omega

theorem matchAfter_space120 (pat r : List Char)
    (hr : r.takeWhile Char.isDigit = []) :
    matchAfter pat Char.isDigit (pat ++ (' ' :: '1' :: '2' :: '0' :: r)) =
      some ['1', '2', '0'] := by
  have hdrop : ((' ' :: '1' :: '2' :: '0' :: r).dropWhile isSpacePy) =
      '1' :: '2' :: '0' :: r := by
    rw [List.dropWhile_cons, if_pos (by decide), List.dropWhile_cons,
      if_neg (by decide)]
  have htake : (('1' :: '2' :: '0' :: r).takeWhile Char.isDigit) =
      ['1', '2', '0'] := by
    rw [List.takeWhile_cons, if_pos (by decide), List.takeWhile_cons,
      if_pos (by decide), List.takeWhile_cons, if_pos (by decide), hr]
  rw [matchAfter, if_pos (isPrefixOf_append_self pat _), List.drop_left,
    hdrop, htake, if_neg (by decide)]

theorem occCount_pos_of_map_isSome {β : Type} (lit : List Char)
    (P : Char → Bool) (cs : List Char) (f : List Char → β)
    (h : ((searchPat lit P cs).map f).isSome = true) :
    1 ≤ occCount lit cs := by
  cases hsp : searchPat lit P cs with
  | none =>
    rw [hsp] at h
    simp at h
  | some v => exact occCount_pos_of_searchPat_some lit P cs v hsp

/-- **C8.** Over a flattened routing page whose text carries the label
line `Prefixes Originated (all): 120` exactly once (the digits delimited
on the right) and none of the seven other labels of the extractor's
fixed table, `_parse_as_info` produces `prefixes_originated_all = 120`
and leaves every other optional numeric field absent; moreover each
field is extracted independently and can only populate when its exact
label text occurs in the page text. -/
theorem parse_as_info_single_label (asn text : String) (p r : List Char)
    (hshape : text.data = p ++ labelPrefAll ++ (' ' :: '1' :: '2' :: '0' :: r))
    (hr : r.takeWhile Char.isDigit = [])
    (huniq : occCount labelPrefAll text.data = 1)
    (h0v4 : occCount labelPrefV4 text.data = 0)
    (h0v6 : occCount labelPrefV6 text.data = 0)
    (h0rv : occCount labelRpkiValid text.data = 0)
    (h0ri : occCount labelRpkiInvalid text.data = 0)
    (h0pe : occCount labelPeers text.data = 0)
    (h0ip : occCount labelIps text.data = 0)
    (h0av : occCount labelAvg text.data = 0) :
    (parse_as_info text asn =
      { asn := asn
        prefixes_originated_all := some 120
        prefixes_originated_v4 := none
        prefixes_originated_v6 := none
        rpki_valid_all := none
        rpki_invalid_all := none
        bgp_peers_observed_all := none
        ips_originated_v4 := none
        avg_path_length_all := none }) ∧
    (∀ t a : String,
      ((parse_as_info t a).prefixes_originated_all.isSome = true →
        1 ≤ occCount labelPrefAll t.data) ∧
      ((parse_as_info t a).prefixes_originated_v4.isSome = true →
        1 ≤ occCount labelPrefV4 t.data) ∧
      ((parse_as_info t a).prefixes_originated_v6.isSome = true →
        1 ≤ occCount labelPrefV6 t.data) ∧
      ((parse_as_info t a).rpki_valid_all.isSome = true →
        1 ≤ occCount labelRpkiValid t.data) ∧
      ((parse_as_info t a).rpki_invalid_all.isSome = true →
        1 ≤ occCount labelRpkiInvalid t.data) ∧
      ((parse_as_info t a).bgp_peers_observed_all.isSome = true →
        1 ≤ occCount labelPeers t.data) ∧
      ((parse_as_info t a).ips_originated_v4.isSome = true →
        1 ≤ occCount labelIps t.data) ∧
      ((parse_as_info t a).avg_path_length_all.isSome = true →
        1 ≤ occCount labelAvg t.data)) := by
  constructor
  · rw [hshape] at huniq
    have hall : searchPat labelPrefAll Char.isDigit text.data =
        some ['1', '2', '0'] := by
      rw [hshape, searchPat_first labelPrefAll Char.isDigit p _ huniq]
      exact matchAfter_space120 labelPrefAll r hr
    have hv4 := searchPat_eq_none_of_occCount_zero labelPrefV4
      Char.isDigit text.data h0v4
    have hv6 := searchPat_eq_none_of_occCount_zero labelPrefV6
      Char.isDigit text.data h0v6
    have hrv := searchPat_eq_none_of_occCount_zero labelRpkiValid
      Char.isDigit text.data h0rv
    have hri := searchPat_eq_none_of_occCount_zero labelRpkiInvalid
      Char.isDigit text.data h0ri
    have hpe := searchPat_eq_none_of_occCount_zero labelPeers
      Char.isDigit text.data h0pe
    have hip := searchPat_eq_none_of_occCount_zero labelIps
      isDigitComma text.data h0ip
    have hav := searchPat_eq_none_of_occCount_zero labelAvg
      isDigitDot text.data h0av
    rw [parse_as_info, hall, hv4, hv6, hrv, hri, hpe, hip, hav]
    rfl
  · intro t a
    exact ⟨occCount_pos_of_map_isSome _ _ _ _,
      occCount_pos_of_map_isSome _ _ _ _,
      occCount_pos_of_map_isSome _ _ _ _,
      occCount_pos_of_map_isSome _ _ _ _,
      occCount_pos_of_map_isSome _ _ _ _,
      occCount_pos_of_map_isSome _ _ _ _,
      occCount_pos_of_map_isSome _ _ _ _,
      occCount_pos_of_map_isSome _ _ _ _⟩

/-- Witness for C8: a concrete page text with the single label line. -/
theorem parse_as_info_single_label_witness :
    parse_as_info "bgp data\nPrefixes Originated (all): 120\nend of page"
        "13335" =
      { asn := "13335"
        prefixes_originated_all := some 120
        prefixes_originated_v4 := none
        prefixes_originated_v6 := none
        rpki_valid_all := none
        rpki_invalid_all := none
        bgp_peers_observed_all := none
        ips_originated_v4 := none
        avg_path_length_all := none } :=
  (parse_as_info_single_label "13335"
    "bgp data\nPrefixes Originated (all): 120\nend of page"
    "bgp data\n".data "\nend of page".data
    (by decide) (by decide) (by decide) (by decide) (by decide) (by decide)
    (by decide) (by decide) (by decide) (by decide)).1

/-! ### Company scraper (company_scraper.py): e-mail filtering -/

/-- The noise substrings of the e-mail filter of
`_extract_company_data`, verbatim. -/
def emailNoiseWords : List String := ["noreply", "no-reply", "donotreply", "example"]

/-- Python `str.lower` per character (ASCII). -/
def toLowerPy (c : Char) : Char :=
  if 'A' ≤ c ∧ c ≤ 'Z' then Char.ofNat (c.toNat + 32) else c

/-- Python `sub in s` — substring containment — on character lists. -/
def hasSub (pat : List Char) : List Char → Bool
  | [] => pat.isPrefixOf []
  | c :: cs => pat.isPrefixOf (c :: cs) || hasSub pat cs

/-- The e-mail pipeline of `CompanyWebsiteScraper._extract_company_data`
from the regex matches on: `emails = list(set(re.findall(...)))` —
modelled by `dedup` of the found matches, the set's enumeration order
being unspecified — then the filter dropping every address containing a
noise word case-insensitively, then the `[:5]` truncation. -/
def extract_contact_emails (found : List String) : List String :=
  ((found.dedup).filter (fun e =>
    !(emailNoiseWords.any (fun w => hasSub w.data (e.data.map toLowerPy))))).take 5

/-- **C9.** The e-mail extraction keeps at most 5 addresses, every kept
address was found on the page and contains no noise word
(case-insensitive substring test against "noreply", "no-reply",
"donotreply", "example"), and whenever the found matches deduplicate to
exactly `alice@example.com` and `bob@co.com` (in any order), the result
is exactly `["bob@co.com"]`. -/
theorem extract_contact_emails_filters :
    (∀ found : List String, (extract_contact_emails found).length ≤ 5) ∧
    (∀ found : List String, ∀ e, e ∈ extract_contact_emails found →
      e ∈ found ∧ ∀ w ∈ emailNoiseWords, hasSub w.data (e.data.map toLowerPy) = false) ∧
    (∀ found : List String,
      found.dedup.Perm ["alice@example.com", "bob@co.com"] →
      extract_contact_emails found = ["bob@co.com"]) := by
  refine ⟨?_, ?_, ?_⟩
  · intro found
    exact List.length_take_le _ _
  · intro found e he
    have hf : e ∈ (found.dedup).filter (fun e =>
        !(emailNoiseWords.any (fun w => hasSub w.data (e.data.map toLowerPy)))) :=
      List.mem_of_mem_take he
    rw [List.mem_filter] at hf
    refine ⟨List.mem_dedup.mp hf.1, ?_⟩
    have hany : (emailNoiseWords.any
        (fun w => hasSub w.data (e.data.map toLowerPy))) = false := by
      have := hf.2
      rwa [Bool.not_eq_true'] at this
    intro w hw
    rw [List.any_eq_false] at hany
    exact Bool.eq_false_iff.mpr (hany w hw)
  · intro found hperm
    have hfil := hperm.filter (fun e =>
      !(emailNoiseWords.any (fun w => hasSub w.data (e.data.map toLowerPy))))
    have hconc : (["alice@example.com", "bob@co.com"].filter (fun e =>
        !(emailNoiseWords.any (fun w => hasSub w.data (e.data.map toLowerPy))))) =
        ["bob@co.com"] := by decide
    rw [hconc] at hfil
    rw [extract_contact_emails, List.perm_singleton.mp hfil]
    rfl

/-- Witness for C9: a found-match list with a duplicated noisy address
deduplicates to the two addresses of the claim, and the extraction keeps
only `bob@co.com`; the truncation and noise clauses apply to it too. -/
theorem extract_contact_emails_filters_witness :
    extract_contact_emails
      ["alice@example.com", "bob@co.com", "alice@example.com"] =
      ["bob@co.com"] ∧
    (extract_contact_emails
      ["alice@example.com", "bob@co.com", "alice@example.com"]).length ≤ 5 ∧
    ("bob@co.com" ∈ extract_contact_emails
        ["alice@example.com", "bob@co.com", "alice@example.com"] →
      "bob@co.com" ∈
        (["alice@example.com", "bob@co.com", "alice@example.com"] :
          List String)) :=
  ⟨extract_contact_emails_filters.2.2
      ["alice@example.com", "bob@co.com", "alice@example.com"] (by decide),
   extract_contact_emails_filters.1
      ["alice@example.com", "bob@co.com", "alice@example.com"],
   fun h => (extract_contact_emails_filters.2.1
      ["alice@example.com", "bob@co.com", "alice@example.com"]
      "bob@co.com" h).1⟩
